import Mathlib

/-!
Verification of the inventory-cache manager of node-opskins-manager
(src/lib/OpskinsManager.js), as a shallow embedding in Lean 4.

The manager keeps an in-memory ordered list of item records, persisted to a
file on every mutation, and orchestrates two remote operations (buy,
withdraw) against it.  Remote calls are modelled as explicit oracle
arguments of type Except; the persistence side effect is modelled by a
counter of save calls; whether a remote endpoint was invoked is recorded in
the outcome structures.
-/

namespace OpskinsManager

/-- Canonical item record: the four fields that addItem keeps
(OpskinsManager.js lines 90-95).  JavaScript ids can be strings or numbers;
we model them as strings, with the empty string standing for a falsy id. -/
structure Item where
  id : String
  name : String
  appid : Nat
  contextid : Nat
deriving DecidableEq, Repr

/-- Normalization performed at the top of addItem (lines 90-95): the input
is rebuilt from exactly the four canonical fields. -/
def normalizeItem (i : Item) : Item :=
  { id := i.id, name := i.name, appid := i.appid, contextid := i.contextid }

/-- Argument accepted by removeItem and findIndexById: either a bare id or a
record carrying one (line 73: typeof item test). -/
inductive ItemRef where
  | byId (id : String)
  | byRecord (item : Item)
deriving DecidableEq, Repr

/-- Id extraction of findIndexById line 73. -/
def ItemRef.refId : ItemRef → String
  | .byId i => i
  | .byRecord r => r.id

/-- State of the inventory cache: the ordered list of records plus the
number of times the persistent store save was called. -/
structure CacheState where
  items : List Item
  saves : Nat
deriving DecidableEq, Repr

/-- The findByName loop (lines 57-70): linear scan returning the first
record whose name equals the argument, or null. -/
def findByName : List Item → String → Option Item
  | [], _ => none
  | e :: rest, n => if e.name = n then some e else findByName rest n

/-- First index whose record has the given id, as an Option.  This is the
content of the findIndexById loop (lines 75-86). -/
def findIdxById? (id : String) : List Item → Option Nat
  | [] => none
  | e :: rest => if e.id = id then some 0 else (findIdxById? id rest).map (· + 1)

/-- The findIndexById method (lines 72-87): returns the position of the
first record whose id equals the extracted id, or -1 when there is none. -/
def findIndexById (l : List Item) (ref : ItemRef) : Int :=
  match findIdxById? ref.refId l with
  | some k => (k : Int)
  | none => -1

/-- The addItem method (lines 89-101): normalize the input, and push it plus
persist only when no record with that id exists and the id is truthy. -/
def addItem (st : CacheState) (raw : Item) : CacheState :=
  let item := normalizeItem raw
  if findIndexById st.items (ItemRef.byRecord item) = -1 ∧ item.id ≠ "" then
    { items := st.items ++ [item], saves := st.saves + 1 }
  else
    st

/-- The removeItem method (lines 103-110): look up the index by id; when
found, splice that single record out and persist, otherwise do nothing. -/
def removeItem (st : CacheState) (ref : ItemRef) : CacheState :=
  match findIdxById? ref.refId st.items with
  | some k => { items := st.items.eraseIdx k, saves := st.saves + 1 }
  | none => st

/-- A cache mutation, for stating the invariant over arbitrary call
sequences. -/
inductive CacheOp where
  | add (item : Item)
  | remove (ref : ItemRef)
deriving DecidableEq, Repr

/-- Apply one cache mutation. -/
def applyOp (st : CacheState) : CacheOp → CacheState
  | .add i => addItem st i
  | .remove r => removeItem st r

/-- Replay a sequence of addItem and removeItem calls against the initially
empty cache created at line 55. -/
def runOps (ops : List CacheOp) : CacheState :=
  ops.foldl applyOp { items := [], saves := 0 }

/-- Cache invariant of the specification: every record has a non-empty id
and no two records share an id. -/
def CacheInv (l : List Item) : Prop :=
  (∀ e ∈ l, e.id ≠ "") ∧ (l.map Item.id).Nodup

instance : DecidablePred CacheInv := fun l => by
  unfold CacheInv; infer_instance

/- ## Basic lemmas about the cache operations -/

theorem findIdxById?_eq_none_iff (id : String) (l : List Item) :
    findIdxById? id l = none ↔ ∀ e ∈ l, e.id ≠ id := by
  induction l with
  | nil => simp [findIdxById?]
  | cons e rest ih =>
    by_cases h : e.id = id
    · simp [findIdxById?, h]
    · simp [findIdxById?, h, ih]

theorem findIndexById_eq_neg_one_iff (l : List Item) (ref : ItemRef) :
    findIndexById l ref = -1 ↔ ∀ e ∈ l, e.id ≠ ref.refId := by
  rw [← findIdxById?_eq_none_iff ref.refId l]
  unfold findIndexById
  cases h : findIdxById? ref.refId l with
  | none => simp
  | some k => simp [h]

theorem normalizeItem_eq (i : Item) : normalizeItem i = i := rfl

theorem addItem_of_not_mem (st : CacheState) (r : Item) (hid : r.id ≠ "")
    (h : ∀ e ∈ st.items, e.id ≠ r.id) :
    addItem st r = { items := st.items ++ [r], saves := st.saves + 1 } := by
  unfold addItem
  rw [normalizeItem_eq]
  rw [if_pos]
  exact ⟨(findIndexById_eq_neg_one_iff st.items (ItemRef.byRecord r)).2 h, hid⟩

theorem addItem_noop_of_mem (st : CacheState) (r : Item)
    (h : ∃ e ∈ st.items, e.id = r.id) : addItem st r = st := by
  unfold addItem
  rw [normalizeItem_eq]
  rw [if_neg]
  intro ⟨hfind, _⟩
  obtain ⟨e, he, heid⟩ := h
  exact (findIndexById_eq_neg_one_iff st.items (ItemRef.byRecord r)).1 hfind e he heid

theorem addItem_noop_of_empty_id (st : CacheState) (r : Item)
    (h : r.id = "") : addItem st r = st := by
  unfold addItem
  rw [normalizeItem_eq]
  rw [if_neg]
  intro ⟨_, hid⟩
  exact hid h

theorem addItem_mem_id (st : CacheState) (r : Item) (hid : r.id ≠ "") :
    ∃ e ∈ (addItem st r).items, e.id = r.id := by
  by_cases h : ∃ e ∈ st.items, e.id = r.id
  · rw [addItem_noop_of_mem st r h]; exact h
  · push_neg at h
    rw [addItem_of_not_mem st r hid h]
    exact ⟨r, by simp⟩

theorem removeItem_noop_of_not_mem (st : CacheState) (ref : ItemRef)
    (h : ∀ e ∈ st.items, e.id ≠ ref.refId) : removeItem st ref = st := by
  unfold removeItem
  rw [(findIdxById?_eq_none_iff ref.refId st.items).2 h]

/- ## Remote operations: buy, withdraw, startup, constructor -/

/-- A marketplace search result (a listing), with the fields buy reads:
name (line 173), id and amount (line 183). -/
structure Listing where
  id : String
  name : String
  amount : Nat
deriving DecidableEq, Repr

/-- One element of the purchase response, with the fields buy reads
(lines 189-190). -/
structure PurchaseResult where
  new_itemid : String
  name : String
deriving DecidableEq, Repr

/-- Ways the buy promise can fail to resolve with an item. -/
inductive BuyFailure where
  /-- A remote error passed to reject (line 180 or line 185). -/
  | remote (e : String)
  /-- No listing name matched exactly: reject new Error at line 180. -/
  | notFound
  /-- The purchase succeeded with an empty items array: the source reads
  items[0].new_itemid at line 189, which throws, so the promise never
  settles; modelled as a distinguished failure. -/
  | emptyPurchase
deriving DecidableEq, Repr

/-- Observable outcome of one buy call: the cache state afterwards, the
settled value, and a trace of which remote endpoints were called with what
argument. -/
structure BuyOutcome where
  state : CacheState
  result : Except BuyFailure Item
  searchInvoked : Bool
  /-- The listing whose id and amount were passed to buyItems (line 183),
  or none when no purchase call was issued. -/
  purchaseArg : Option Listing
deriving Repr

/-- The exact-match scan of buy (lines 170-177): first listing whose name
is strictly equal to the requested name, else null. -/
def selectListing (name : String) : List Listing → Option Listing
  | [] => none
  | s :: rest => if s.name = name then some s else selectListing name rest

/-- The buy method (lines 151-201).  The remote search and purchase calls
are modelled by the oracle arguments searchResp and purchaseResp, each an
error or a response; the callback at line 169 defaults sales to the empty
list when the search errors, so the error test at line 179 fires first. -/
def buy (appID contextID : Nat) (st : CacheState) (name : String)
    (searchResp : Except String (List Listing))
    (purchaseResp : Except String (List PurchaseResult)) : BuyOutcome :=
  match findByName st.items name with
  | some fromInventory =>
      { state := st, result := .ok fromInventory
        searchInvoked := false, purchaseArg := none }
  | none =>
    match searchResp with
    | .error e =>
        { state := st, result := .error (.remote e)
          searchInvoked := true, purchaseArg := none }
    | .ok sales =>
      match selectListing name sales with
      | none =>
          { state := st, result := .error .notFound
            searchInvoked := true, purchaseArg := none }
      | some itemToBuy =>
        match purchaseResp with
        | .error e =>
            { state := st, result := .error (.remote e)
              searchInvoked := true, purchaseArg := some itemToBuy }
        | .ok [] =>
            { state := st, result := .error .emptyPurchase
              searchInvoked := true, purchaseArg := some itemToBuy }
        | .ok (p :: _) =>
            let item : Item :=
              { id := p.new_itemid, name := p.name
                appid := appID, contextid := contextID }
            { state := addItem st item, result := .ok item
              searchInvoked := true, purchaseArg := some itemToBuy }

/-- One offer of the withdrawal response, with the fields withdraw reads
(lines 218-224).  The transferred items are left opaque (strings). -/
structure RawOffer where
  items : List String
  bot_id : Nat
  tradeoffer_id : String
  tradeoffer_error : Option String
deriving DecidableEq, Repr

/-- Successful withdrawal response body: data.offers (line 218). -/
structure WithdrawData where
  offers : List RawOffer
deriving DecidableEq, Repr

/-- Normalized summary resolved by withdraw (lines 220-225). -/
structure WithdrawOffer where
  items : List String
  bot_id : Nat
  id : String
  tradeoffer_error : Option String
deriving DecidableEq, Repr

/-- Ways the withdraw promise can fail to resolve with an offer. -/
inductive WithdrawFailure where
  /-- The remote error passed to reject at line 215. -/
  | remote (e : String)
  /-- The call succeeded with an empty offers array: the source reads
  data.offers[0] then offer.items (lines 218-221), which throws, so the
  promise never settles; modelled as a distinguished failure. -/
  | noOffer
deriving DecidableEq, Repr

/-- The withdraw method (lines 208-228): optimistically removeItem, then
act on the remote response, modelled by the oracle argument remote: on
error, addItem the argument back and reject; on success, resolve the
normalized first offer. -/
def withdraw (st : CacheState) (item : Item)
    (remote : Except String WithdrawData) :
    CacheState × Except WithdrawFailure WithdrawOffer :=
  let st1 := removeItem st (ItemRef.byRecord item)
  match remote with
  | .error e => (addItem st1 item, .error (.remote e))
  | .ok data =>
    match data.offers with
    | [] => (st1, .error .noOffer)
    | offer :: _ =>
        (st1, .ok { items := offer.items, bot_id := offer.bot_id
                    id := offer.tradeoffer_id
                    tradeoffer_error := offer.tradeoffer_error })

/-- Observable outcome of startup: the cache state and how many full remote
inventory fetches were issued. -/
structure StartupOutcome where
  state : CacheState
  fetches : Nat
deriving DecidableEq, Repr

/-- The setInventory method (lines 49-127): the cache starts empty
(line 55); when the persisted file read yields a list it is adopted
verbatim (lines 114-116); otherwise one getInventory fetch is issued and on
success each returned item is passed to addItem (lines 118-124), while a
fetch failure only logs (line 125), leaving the cache empty. -/
def setInventory (persisted : Option (List Item))
    (fetch : Except String (List Item)) : StartupOutcome :=
  match persisted with
  | some inv => { state := { items := inv, saves := 0 }, fetches := 0 }
  | none =>
    match fetch with
    | .error _ => { state := { items := [], saves := 0 }, fetches := 1 }
    | .ok items =>
        { state := items.foldl addItem { items := [], saves := 0 }
          fetches := 1 }

/-- Constructor options (lines 20): fields may be absent; appID defaults to
730 and contextID to 2. -/
structure ManagerOptions where
  accountName : Option String
  apiKey : Option String
  appID : Option Nat
  contextID : Option Nat
deriving DecidableEq, Repr

/-- Configuration held by a constructed manager (lines 31-33, 53). -/
structure Manager where
  apiKey : String
  appID : Nat
  contextID : Nat
  inventoryFile : String
deriving DecidableEq, Repr

/-- JavaScript truthiness of the apiKey option: present and non-empty. -/
def truthyKey : Option String → Bool
  | none => false
  | some s => !(s == "")

/-- The constructor (lines 20-44): throw synchronously when apiKey is
falsy (lines 25-27), before any storage or remote activity; otherwise
record the configuration and the derived inventory file name (line 53). -/
def constructManager (opts : ManagerOptions) : Except String Manager :=
  if truthyKey opts.apiKey then
    let apiKey := opts.apiKey.getD ""
    let appID := opts.appID.getD 730
    let contextID := opts.contextID.getD 2
    .ok { apiKey := apiKey, appID := appID, contextID := contextID
          inventoryFile := "inventory_" ++ apiKey ++ "_" ++ toString appID
            ++ "_" ++ toString contextID ++ ".json" }
  else
    .error "apiKey is required"

/-- Deduplication by id keeping first occurrences in order.  Modelled from
the spec words for claim comparison: the cache after a missing-file startup
is claimed to equal the fetched items deduplicated by id. -/
def specDedupById (l : List Item) : List Item :=
  l.foldl (fun acc e => if acc.any (fun x => x.id = e.id) then acc else acc ++ [e]) []

/- ## Further helper lemmas -/

theorem findIdxById?_append_cons (id : String) (pre post : List Item)
    (x : Item) (hpre : ∀ e ∈ pre, e.id ≠ id) (hx : x.id = id) :
    findIdxById? id (pre ++ x :: post) = some pre.length := by
  induction pre with
  | nil => simp [findIdxById?, hx]
  | cons a rest ih =>
    have ha : a.id ≠ id := hpre a (by simp)
    have ih2 := ih (fun e he => hpre e (by simp [he]))
    simp [findIdxById?, ha, ih2]

theorem eraseIdx_append_cons (pre post : List Item) (x : Item) :
    (pre ++ x :: post).eraseIdx pre.length = pre ++ post := by
  induction pre with
  | nil => simp
  | cons a rest ih => simpa using ih

theorem selectListing_eq_none (name : String) (sales : List Listing)
    (h : ∀ t ∈ sales, t.name ≠ name) : selectListing name sales = none := by
  induction sales with
  | nil => rfl
  | cons a rest ih =>
    have ha : a.name ≠ name := h a (by simp)
    have ih2 := ih (fun t ht => h t (by simp [ht]))
    simp [selectListing, ha, ih2]

theorem selectListing_append_cons (name : String) (pre post : List Listing)
    (s : Listing) (hpre : ∀ t ∈ pre, t.name ≠ name) (hs : s.name = name) :
    selectListing name (pre ++ s :: post) = some s := by
  induction pre with
  | nil => simp [selectListing, hs]
  | cons a rest ih =>
    have ha : a.name ≠ name := hpre a (by simp)
    have ih2 := ih (fun t ht => hpre t (by simp [ht]))
    simp [selectListing, ha, ih2]

/- ## Claim theorems -/

/-- C9: constructing a manager with a missing or empty apiKey raises an
error synchronously from the constructor, before any cache or remote
activity; for every options object whose apiKey is falsy, construction
fails. -/
theorem constructor_requires_apiKey (opts : ManagerOptions)
    (h : opts.apiKey = none ∨ opts.apiKey = some "") :
    constructManager opts = .error "apiKey is required" := by
  unfold constructManager
  rcases h with h | h <;> simp [truthyKey, h]

theorem constructor_requires_apiKey_witness :
    constructManager
        { accountName := none, apiKey := some "", appID := none,
          contextID := none } = .error "apiKey is required" :=
  constructor_requires_apiKey
    { accountName := none, apiKey := some "", appID := none,
      contextID := none } (Or.inr rfl)

/-- C3: whenever findByName returns a record from the current cache,
buy resolves to that exact record, does not invoke the remote search or
purchase call, and does not mutate the cache. -/
theorem buy_short_circuit (appID contextID : Nat) (st : CacheState)
    (name : String) (searchResp : Except String (List Listing))
    (purchaseResp : Except String (List PurchaseResult)) (r : Item)
    (h : findByName st.items name = some r) :
    buy appID contextID st name searchResp purchaseResp =
      { state := st, result := .ok r, searchInvoked := false,
        purchaseArg := none } := by
  unfold buy
  rw [h]

theorem buy_short_circuit_witness :
    buy 730 2 { items := [⟨"7", "AK", 730, 2⟩], saves := 0 } "AK"
        (.error "down") (.error "down") =
      { state := { items := [⟨"7", "AK", 730, 2⟩], saves := 0 },
        result := .ok ⟨"7", "AK", 730, 2⟩, searchInvoked := false,
        purchaseArg := none } :=
  buy_short_circuit 730 2 { items := [⟨"7", "AK", 730, 2⟩], saves := 0 }
    "AK" (.error "down") (.error "down") ⟨"7", "AK", 730, 2⟩ rfl

theorem buy_state_eq_or_ok (appID contextID : Nat) (st : CacheState)
    (name : String) (sr : Except String (List Listing))
    (pr : Except String (List PurchaseResult)) :
    (buy appID contextID st name sr pr).state = st ∨
    ∃ r, (buy appID contextID st name sr pr).result = .ok r := by
  unfold buy
  split
  · exact Or.inr ⟨_, rfl⟩
  · split
    · exact Or.inl rfl
    · split
      · exact Or.inl rfl
      · split
        · exact Or.inl rfl
        · exact Or.inl rfl
        · exact Or.inr ⟨_, rfl⟩

/-- C5: every failing buy invocation (search error, no exactly matching
listing, or purchase error) leaves the inventory cache unchanged. -/
theorem buy_failure_leaves_cache (appID contextID : Nat) (st : CacheState)
    (name : String) (sr : Except String (List Listing))
    (pr : Except String (List PurchaseResult)) (f : BuyFailure)
    (h : (buy appID contextID st name sr pr).result = .error f) :
    (buy appID contextID st name sr pr).state = st := by
  rcases buy_state_eq_or_ok appID contextID st name sr pr with hstate | ⟨r, hr⟩
  · exact hstate
  · rw [h] at hr
    simp at hr

theorem buy_failure_leaves_cache_witness :
    (buy 730 2 { items := [], saves := 0 } "AK" (.error "boom")
        (.error "boom")).state = { items := [], saves := 0 } :=
  buy_failure_leaves_cache 730 2 { items := [], saves := 0 } "AK"
    (.error "boom") (.error "boom") (.remote "boom") rfl

/-- C2: withdraw removes the record with the argument id from the cache
before the remote call is acted on; when the remote call fails it re-adds
the item and propagates the failure, so a cache that initially contained a
record with that id again contains one afterwards. -/
theorem withdraw_failure_compensates (st : CacheState) (item : Item)
    (e : String) (hid : item.id ≠ "")
    (hin : ∃ r ∈ st.items, r.id = item.id) :
    (∀ d, (withdraw st item (.ok d)).1 = removeItem st (ItemRef.byRecord item)) ∧
    (withdraw st item (.error e)).2 = .error (.remote e) ∧
    (withdraw st item (.error e)).1 =
      addItem (removeItem st (ItemRef.byRecord item)) item ∧
    ∃ r ∈ (withdraw st item (.error e)).1.items, r.id = item.id := by
  refine ⟨?_, rfl, rfl, ?_⟩
  · intro d
    rcases d with ⟨offers⟩
    cases offers <;> rfl
  · exact addItem_mem_id (removeItem st (ItemRef.byRecord item)) item hid

theorem withdraw_failure_compensates_witness :
    (withdraw { items := [⟨"5", "knife", 730, 2⟩], saves := 0 }
        ⟨"5", "knife", 730, 2⟩ (.error "fail")).2 =
      .error (.remote "fail") ∧
    ∃ r ∈ (withdraw { items := [⟨"5", "knife", 730, 2⟩], saves := 0 }
        ⟨"5", "knife", 730, 2⟩ (.error "fail")).1.items, r.id = "5" := by
  have h := withdraw_failure_compensates
    { items := [⟨"5", "knife", 730, 2⟩], saves := 0 } ⟨"5", "knife", 730, 2⟩
    "fail" (by decide) ⟨⟨"5", "knife", 730, 2⟩, by simp, rfl⟩
  exact ⟨h.2.1, h.2.2.2⟩

/-- C10: a failed withdrawal of an item with a truthy id that is absent
from the cache inserts the normalized item into the cache: the optimistic
removal is a no-op but the compensation unconditionally re-adds the
argument. -/
theorem withdraw_failure_inserts_absent (st : CacheState) (item : Item)
    (e : String) (hid : item.id ≠ "")
    (habs : ∀ r ∈ st.items, r.id ≠ item.id) :
    (withdraw st item (.error e)).1.items =
      st.items ++ [normalizeItem item] ∧
    (withdraw st item (.error e)).2 = .error (.remote e) := by
  refine ⟨?_, rfl⟩
  show (addItem (removeItem st (ItemRef.byRecord item)) item).items = _
  rw [removeItem_noop_of_not_mem st (ItemRef.byRecord item) habs]
  rw [addItem_of_not_mem st item hid habs]
  rfl

theorem withdraw_failure_inserts_absent_witness :
    (withdraw { items := [], saves := 3 } ⟨"9", "x", 730, 2⟩
        (.error "down")).1.items = [⟨"9", "x", 730, 2⟩] := by
  have h := withdraw_failure_inserts_absent { items := [], saves := 3 }
    ⟨"9", "x", 730, 2⟩ "down" (by decide) (by simp)
  simpa using h.1

theorem addItem_preserves_inv (st : CacheState) (r : Item)
    (h : CacheInv st.items) : CacheInv (addItem st r).items := by
  by_cases hid : r.id = ""
  · rw [addItem_noop_of_empty_id st r hid]; exact h
  · by_cases hmem : ∃ e ∈ st.items, e.id = r.id
    · rw [addItem_noop_of_mem st r hmem]; exact h
    · push_neg at hmem
      rw [addItem_of_not_mem st r hid hmem]
      obtain ⟨hids, hnd⟩ := h
      constructor
      · intro e he
        rcases List.mem_append.1 he with he | he
        · exact hids e he
        · simp at he; rw [he]; exact hid
      · rw [List.map_append]
        simp only [List.map_cons, List.map_nil]
        rw [List.nodup_append]
        refine ⟨hnd, List.nodup_singleton _, ?_⟩
        intro v hv hv2
        simp at hv2
        obtain ⟨e, he, heid⟩ := List.mem_map.1 hv
        exact hmem e he (heid.trans hv2)

theorem removeItem_preserves_inv (st : CacheState) (ref : ItemRef)
    (h : CacheInv st.items) : CacheInv (removeItem st ref).items := by
  unfold removeItem
  cases hfind : findIdxById? ref.refId st.items with
  | none => exact h
  | some k =>
    obtain ⟨hids, hnd⟩ := h
    have hsub : List.Sublist (st.items.eraseIdx k) st.items :=
      List.eraseIdx_sublist _ _
    show CacheInv (st.items.eraseIdx k)
    constructor
    · intro e he
      exact hids e (hsub.subset he)
    · exact hnd.sublist (hsub.map Item.id)

theorem runOps_preserves_inv (ops : List CacheOp) :
    ∀ st : CacheState, CacheInv st.items →
      CacheInv (ops.foldl applyOp st).items := by
  induction ops with
  | nil => intro st h; exact h
  | cons op rest ih =>
    intro st h
    refine ih (applyOp st op) ?_
    cases op with
    | add i => exact addItem_preserves_inv st i h
    | remove r => exact removeItem_preserves_inv st r h

/-- C1: replaying any sequence of addItem and removeItem calls against the
initially empty inventory cache yields a cache in which every record has a
non-empty id and no two records share an id. -/
theorem runOps_cache_invariant (ops : List CacheOp) :
    CacheInv (runOps ops).items := by
  unfold runOps
  exact runOps_preserves_inv ops { items := [], saves := 0 } (by simp [CacheInv])

theorem filter_id_length_eq_one (l : List Item) (v : String)
    (hnd : (l.map Item.id).Nodup) (hmem : ∃ e ∈ l, e.id = v) :
    (l.filter (fun e => e.id == v)).length = 1 := by
  induction l with
  | nil => simp at hmem
  | cons a rest ih =>
    simp only [List.map_cons, List.nodup_cons] at hnd
    obtain ⟨ha, hndr⟩ := hnd
    by_cases hav : a.id = v
    · have hrest : rest.filter (fun e => e.id == v) = [] := by
        rw [List.filter_eq_nil_iff]
        intro e he
        simp only [beq_iff_eq]
        intro hev
        exact ha (List.mem_map.2 ⟨e, he, hev.trans hav.symm⟩) |>.elim
      simp [List.filter_cons, hav, hrest]
    · have hmem2 : ∃ e ∈ rest, e.id = v := by
        rcases hmem with ⟨e, he, hev⟩
        rcases List.mem_cons.1 he with rfl | he2
        · exact absurd hev hav
        · exact ⟨e, he2, hev⟩
      simp [List.filter_cons, hav, ih hndr hmem2]

/-- C6: addItem is idempotent under id-collision: for a record with a
truthy id, a second addItem call is a no-op (no insertion, no additional
persist), the cache ends with exactly one record carrying that id, and
colliding or empty-id inputs are silently ignored. -/
theorem addItem_idempotent (st : CacheState) (r : Item) (hid : r.id ≠ "")
    (hinv : CacheInv st.items) :
    addItem (addItem st r) r = addItem st r ∧
    ((addItem (addItem st r) r).items.filter (fun e => e.id == r.id)).length = 1 ∧
    (∀ s : CacheState, ∀ q : Item,
      ((∃ e ∈ s.items, e.id = q.id) ∨ q.id = "") → addItem s q = s) := by
  have hsecond : addItem (addItem st r) r = addItem st r :=
    addItem_noop_of_mem (addItem st r) r (addItem_mem_id st r hid)
  refine ⟨hsecond, ?_, ?_⟩
  · rw [hsecond]
    by_cases hmem : ∃ e ∈ st.items, e.id = r.id
    · rw [addItem_noop_of_mem st r hmem]
      exact filter_id_length_eq_one st.items r.id hinv.2 hmem
    · push_neg at hmem
      rw [addItem_of_not_mem st r hid hmem]
      have hrest : st.items.filter (fun e => e.id == r.id) = [] := by
        rw [List.filter_eq_nil_iff]
        intro e he
        simp only [beq_iff_eq]
        exact hmem e he
      simp [List.filter_append, hrest]
  · intro s q h
    rcases h with h | h
    · exact addItem_noop_of_mem s q h
    · exact addItem_noop_of_empty_id s q h

theorem addItem_idempotent_witness :
    addItem (addItem { items := [], saves := 0 } ⟨"1", "a", 730, 2⟩)
        ⟨"1", "a", 730, 2⟩ =
      addItem { items := [], saves := 0 } ⟨"1", "a", 730, 2⟩ ∧
    ((addItem (addItem { items := [], saves := 0 } ⟨"1", "a", 730, 2⟩)
        ⟨"1", "a", 730, 2⟩).items.filter
          (fun e => e.id == "1")).length = 1 := by
  have h := addItem_idempotent { items := [], saves := 0 }
    ⟨"1", "a", 730, 2⟩ (by decide) ⟨by simp, by simp⟩
  exact ⟨h.1, h.2.1⟩

/-- C4: over the listings returned by the remote search, buy selects the
first one (in returned order) whose name is exactly equal to the requested
name and passes it to the purchase call; when no listing name matches, buy
fails with the item-not-found error. -/
theorem buy_exact_match (appID contextID : Nat) (st : CacheState)
    (name : String) (pr : Except String (List PurchaseResult))
    (sales : List Listing) (hmiss : findByName st.items name = none) :
    (∀ pre s post, sales = pre ++ s :: post → s.name = name →
      (∀ t ∈ pre, t.name ≠ name) →
      (buy appID contextID st name (.ok sales) pr).purchaseArg = some s) ∧
    ((∀ t ∈ sales, t.name ≠ name) →
      (buy appID contextID st name (.ok sales) pr).result =
        .error .notFound) := by
  constructor
  · intro pre s post hsplit hs hpre
    have hsel : selectListing name sales = some s := by
      rw [hsplit]
      exact selectListing_append_cons name pre post s hpre hs
    unfold buy
    simp only [hmiss, hsel]
    cases pr with
    | error e => rfl
    | ok items =>
      cases items with
      | nil => rfl
      | cons p rest => rfl
  · intro hnone
    have hsel : selectListing name sales = none :=
      selectListing_eq_none name sales hnone
    unfold buy
    simp only [hmiss, hsel]

theorem buy_exact_match_witness :
    (buy 730 2 { items := [], saves := 0 } "A"
        (.ok [⟨"1", "A", 1⟩, ⟨"2", "B", 1⟩, ⟨"3", "A", 1⟩])
        (.error "x")).purchaseArg = some ⟨"1", "A", 1⟩ := by
  have h := buy_exact_match 730 2 { items := [], saves := 0 } "A"
    (.error "x") [⟨"1", "A", 1⟩, ⟨"2", "B", 1⟩, ⟨"3", "A", 1⟩] rfl
  exact h.1 [] ⟨"1", "A", 1⟩ [⟨"2", "B", 1⟩, ⟨"3", "A", 1⟩] rfl rfl (by simp)

/-- C8: removeItem removes exactly the first record (in insertion order)
whose id matches the argument and persists once; when no record matches it
is a no-op that neither mutates the cache nor persists; all other records
keep their value and relative order. -/
theorem removeItem_correct (st : CacheState) (ref : ItemRef) :
    ((∀ e ∈ st.items, e.id ≠ ref.refId) → removeItem st ref = st) ∧
    (∀ pre x post, st.items = pre ++ x :: post → x.id = ref.refId →
      (∀ e ∈ pre, e.id ≠ ref.refId) →
      (removeItem st ref).items = pre ++ post ∧
      (removeItem st ref).saves = st.saves + 1) := by
  constructor
  · exact removeItem_noop_of_not_mem st ref
  · intro pre x post hsplit hx hpre
    have h1 : findIdxById? ref.refId st.items = some pre.length := by
      rw [hsplit]
      exact findIdxById?_append_cons ref.refId pre post x hpre hx
    unfold removeItem
    rw [h1]
    refine ⟨?_, rfl⟩
    show (st.items.eraseIdx pre.length) = pre ++ post
    rw [hsplit]
    exact eraseIdx_append_cons pre post x

theorem removeItem_correct_witness :
    (removeItem
        { items := [⟨"1", "a", 730, 2⟩, ⟨"2", "b", 730, 2⟩, ⟨"2", "c", 730, 2⟩],
          saves := 5 } (ItemRef.byId "2")).items =
      [⟨"1", "a", 730, 2⟩, ⟨"2", "c", 730, 2⟩] ∧
    (removeItem
        { items := [⟨"1", "a", 730, 2⟩, ⟨"2", "b", 730, 2⟩, ⟨"2", "c", 730, 2⟩],
          saves := 5 } (ItemRef.byId "2")).saves = 6 := by
  have h := removeItem_correct
    { items := [⟨"1", "a", 730, 2⟩, ⟨"2", "b", 730, 2⟩, ⟨"2", "c", 730, 2⟩],
      saves := 5 } (ItemRef.byId "2")
  exact h.2 [⟨"1", "a", 730, 2⟩] ⟨"2", "b", 730, 2⟩ [⟨"2", "c", 730, 2⟩]
    rfl rfl (by decide)

theorem addItem_items_congr (l : List Item) (n m : Nat) (i : Item) :
    (addItem { items := l, saves := n } i).items =
      (addItem { items := l, saves := m } i).items := by
  by_cases hid : i.id = ""
  · rw [addItem_noop_of_empty_id _ i hid, addItem_noop_of_empty_id _ i hid]
  · by_cases hmem : ∃ e ∈ l, e.id = i.id
    · rw [addItem_noop_of_mem _ i hmem, addItem_noop_of_mem _ i hmem]
    · push_neg at hmem
      rw [addItem_of_not_mem _ i hid hmem, addItem_of_not_mem _ i hid hmem]

theorem foldl_addItem_items (l : List Item) :
    ∀ st : CacheState,
      (l.foldl addItem st).items =
        l.foldl (fun acc i => (addItem { items := acc, saves := 0 } i).items)
          st.items := by
  induction l with
  | nil => intro st; rfl
  | cons i rest ih =>
    intro st
    simp only [List.foldl_cons]
    rw [ih (addItem st i)]
    congr 1
    exact addItem_items_congr st.items st.saves 0 i

theorem foldl_addItem_eq_dedup (l : List Item) :
    ∀ acc : List Item,
      l.foldl (fun acc i => (addItem { items := acc, saves := 0 } i).items)
          acc =
        (l.filter (fun i => !(i.id == ""))).foldl
          (fun acc e =>
            if acc.any (fun x => x.id = e.id) then acc else acc ++ [e])
          acc := by
  induction l with
  | nil => intro acc; rfl
  | cons i rest ih =>
    intro acc
    by_cases hid : i.id = ""
    · have h1 : (addItem { items := acc, saves := 0 } i).items = acc := by
        rw [addItem_noop_of_empty_id _ i hid]
      simp only [List.foldl_cons, List.filter_cons, hid]
      simp only [beq_self_eq_true, Bool.not_true, if_false]
      rw [h1]
      exact ih acc
    · have hfil : (i.id == "") = false := by
        simp [hid]
      by_cases hmem : ∃ e ∈ acc, e.id = i.id
      · have h1 : (addItem { items := acc, saves := 0 } i).items = acc := by
          rw [addItem_noop_of_mem _ i hmem]
        have hany : acc.any (fun x => x.id = i.id) = true := by
          simp only [List.any_eq_true, decide_eq_true_eq]
          exact hmem
        simp only [List.foldl_cons, List.filter_cons, hfil, Bool.not_false,
          if_true, hany, if_pos]
        rw [h1]
        exact ih acc
      · push_neg at hmem
        have h1 : (addItem { items := acc, saves := 0 } i).items =
            acc ++ [i] := by
          rw [addItem_of_not_mem _ i hid hmem]
        have hany : acc.any (fun x => x.id = i.id) = false := by
          simp only [List.any_eq_false, decide_eq_true_eq]
          exact hmem
        simp only [List.foldl_cons, List.filter_cons, hfil, Bool.not_false,
          if_true, hany]
        simp only [Bool.false_eq_true, if_false]
        rw [h1]
        exact ih (acc ++ [i])

/-- C7 counterexample: a fetched item with an empty (falsy) id is kept by
deduplication by id but dropped by addItem, so after a missing-file startup
the cache does not equal the fetched items deduplicated by id. -/
theorem setInventory_dedup_counterexample :
    (setInventory none (.ok [⟨"", "ghost", 730, 2⟩])).state.items ≠
      specDedupById [⟨"", "ghost", 730, 2⟩] := by
  decide

/-- C7 (amended): when no persisted file exists, exactly one full remote
inventory fetch is issued and each returned item is passed to addItem, so
the cache equals the fetched items with truthy ids, deduplicated by id
keeping first occurrences in returned order; a failed fetch leaves the
cache empty and does not raise. -/
theorem setInventory_missing_file (items : List Item) (e : String) :
    (setInventory none (.ok items)).fetches = 1 ∧
    (setInventory none (.ok items)).state.items =
      specDedupById (items.filter (fun i => !(i.id == ""))) ∧
    (setInventory none (.error e)).state.items = [] ∧
    (setInventory none (.error e)).fetches = 1 := by
  refine ⟨rfl, ?_, rfl, rfl⟩
  show (items.foldl addItem { items := [], saves := 0 }).items = _
  rw [foldl_addItem_items items { items := [], saves := 0 }]
  rw [foldl_addItem_eq_dedup items []]
  rfl

end OpskinsManager
